import Mathlib

/-!
Verification development for a DICOM metadata ingestion service (src/main.py).

The embedding models, from the source:
  - the date normalization performed by
    datetime.strptime(s, "%Y%m%d").strftime("%d-%b-%Y") (CPython strptime
    semantics: the "%Y" directive matches exactly four digits, "%m" and "%d"
    match one or two digits via the alternations 1[0-2]|0[1-9]|[1-9] and
    3[01]|[12]\d|0[1-9]|[1-9], alternatives tried left to right with
    backtracking, followed by an unconverted-data-remains check and the
    datetime constructor's calendar validation);
  - the metadata extraction of parse_and_store_dicom (field defaults,
    person-name flattening, modality fallback via raw tag (0x0008, 0x0060));
  - the record store backed by the dicom_files table (unique filename
    constraint, autoincrement id sequence, reset_id_sequence);
  - the two ingestion endpoints upload_dicom and upload_dicom_from_url and
    the retrieval/administrative endpoints, with the filesystem of the
    uploads directory as an association list from path to raw bytes.
-/

/-- ASCII digit test, modelling the regex class \d on ASCII input. -/
def isDig (c : Char) : Bool := 48 ≤ c.toNat && c.toNat ≤ 57

/-- Numeric value of an ASCII digit character. -/
def dv (c : Char) : Nat := c.toNat - 48

/-- Alternatives of the strptime month group 1[0-2]|0[1-9]|[1-9], in regex
order.  Each entry is the parsed month paired with the unconsumed rest. -/
def monthAlts : List Char → List (Nat × List Char)
  | c1 :: c2 :: t =>
    (if isDig c1 ∧ isDig c2 ∧ dv c1 = 1 ∧ dv c2 ≤ 2 then [(10 + dv c2, t)] else []) ++
    (if isDig c1 ∧ isDig c2 ∧ dv c1 = 0 ∧ 1 ≤ dv c2 then [(dv c2, t)] else []) ++
    (if isDig c1 ∧ 1 ≤ dv c1 ∧ dv c1 ≤ 9 then [(dv c1, c2 :: t)] else [])
  | [c1] => if isDig c1 ∧ 1 ≤ dv c1 ∧ dv c1 ≤ 9 then [(dv c1, [])] else []
  | [] => []

/-- Alternatives of the strptime day group 3[01]|[12]\d|0[1-9]|[1-9], in
regex order. -/
def dayAlts : List Char → List (Nat × List Char)
  | c1 :: c2 :: t =>
    (if isDig c1 ∧ isDig c2 ∧ dv c1 = 3 ∧ dv c2 ≤ 1 then [(30 + dv c2, t)] else []) ++
    (if isDig c1 ∧ isDig c2 ∧ 1 ≤ dv c1 ∧ dv c1 ≤ 2 then [(10 * dv c1 + dv c2, t)] else []) ++
    (if isDig c1 ∧ isDig c2 ∧ dv c1 = 0 ∧ 1 ≤ dv c2 then [(dv c2, t)] else []) ++
    (if isDig c1 ∧ 1 ≤ dv c1 ∧ dv c1 ≤ 9 then [(dv c1, c2 :: t)] else [])
  | [c1] => if isDig c1 ∧ 1 ≤ dv c1 ∧ dv c1 ≤ 9 then [(dv c1, [])] else []
  | [] => []

/-- The month-then-day tail of the strptime "%Y%m%d" regex match on the
characters after the year.  The engine takes the first month alternative for
which some day alternative matches (day alternatives tried in order), then
strptime raises unless the match consumed the whole input. -/
def strptimeMD (rest : List Char) : Option (Nat × Nat) :=
  match (monthAlts rest).findSome? (fun p =>
      match dayAlts p.2 with
      | [] => none
      | q :: _ => some (p.1, q.1, q.2)) with
  | some (m, d, r) => if r = [] then some (m, d) else none
  | none => none

/-- Leap year test of the Gregorian calendar, as in Python datetime. -/
def isLeapYear (y : Nat) : Bool := (y % 4 == 0 && y % 100 != 0) || y % 400 == 0

/-- Number of days of a month, as validated by the datetime constructor. -/
def daysInMonth (y m : Nat) : Nat :=
  if m = 2 then (if isLeapYear y then 29 else 28)
  else if m = 4 ∨ m = 6 ∨ m = 9 ∨ m = 11 then 30
  else 31

/-- datetime.strptime(s, "%Y%m%d"): four digit year, flexible month and day
groups, full-consumption check, then calendar validation (year at least
MINYEAR = 1, day within the month). Returns (year, month, day). -/
def strptimeYmd (s : String) : Option (Nat × Nat × Nat) :=
  match s.toList with
  | y1 :: y2 :: y3 :: y4 :: rest =>
    if isDig y1 ∧ isDig y2 ∧ isDig y3 ∧ isDig y4 then
      match strptimeMD rest with
      | some (m, d) =>
        if 1 ≤ dv y1 * 1000 + dv y2 * 100 + dv y3 * 10 + dv y4 ∧
            d ≤ daysInMonth (dv y1 * 1000 + dv y2 * 100 + dv y3 * 10 + dv y4) m then
          some (dv y1 * 1000 + dv y2 * 100 + dv y3 * 10 + dv y4, m, d)
        else none
      | none => none
    else none
  | _ => none

/-- Three-letter month abbreviation printed by strftime %b in the C locale. -/
def monthAbbrev : Nat → String
  | 1 => "Jan"
  | 2 => "Feb"
  | 3 => "Mar"
  | 4 => "Apr"
  | 5 => "May"
  | 6 => "Jun"
  | 7 => "Jul"
  | 8 => "Aug"
  | 9 => "Sep"
  | 10 => "Oct"
  | 11 => "Nov"
  | 12 => "Dec"
  | _ => ""

/-- Two-digit zero padding of strftime %d. -/
def pad2 (n : Nat) : String := if n < 10 then "0" ++ toString n else toString n

/-- strftime("%d-%b-%Y") on a (year, month, day) triple. -/
def strftimeDMonY (y m d : Nat) : String :=
  pad2 d ++ "-" ++ monthAbbrev m ++ "-" ++ toString y

/-- Modelled error text of the ValueError raised by a failed strptime. -/
def strptimeErrMsg (s : String) : String :=
  "time data " ++ s ++ " does not match format %Y%m%d"

/-- The per-field date normalization of parse_and_store_dicom: absent fields
default to the empty string, an empty value stays empty (Python truthiness),
a non-empty value goes through strptime/strftime, whose failure propagates
as the extraction error. -/
def normDateE (src : Option String) : Except String String :=
  let s := src.getD ""
  if s = "" then Except.ok ""
  else
    match strptimeYmd s with
    | some (y, m, d) => Except.ok (strftimeDMonY y m d)
    | none => Except.error (strptimeErrMsg s)

/-- The value of the PatientName attribute at the extractor's interface:
either a structured person name exposing family and given components, or a
plain string. An absent attribute is modelled by Option.none outside. -/
inductive PNValue
  | structured (family given : String)
  | plain (s : String)
deriving DecidableEq

/-- A parsed DICOM dataset at the interface parse_and_store_dicom consumes:
the named attributes getattr reads (none models an absent attribute, the
strings are the str() of the raw values), plus the raw tag mapping used by
the (0x0008, 0x0060) fallback lookup. -/
structure DicomData where
  patientID : Option String
  patientNameAttr : Option PNValue
  patientBirthDate : Option String
  patientSex : Option String
  patientAge : Option String
  patientWeight : Option String
  patientAddress : Option String
  studyDate : Option String
  studyTime : Option String
  studyID : Option String
  modality : Option String
  studyDescription : Option String
  seriesDate : Option String
  seriesTime : Option String
  seriesDescription : Option String
  rawTags : List ((Nat × Nat) × String)
deriving DecidableEq

/-- Lookup of a raw tag coordinate, modelling `(g, e) in dicom_data` plus
`dicom_data[g, e].value`. -/
def rawTagLookup (tags : List ((Nat × Nat) × String)) (g e : Nat) : Option String :=
  match tags.find? (fun t => t.1.1 == g && t.1.2 == e) with
  | some t => some t.2
  | none => none

/-- Flattening of the PatientName attribute: structured names become
"family, given", otherwise str() of the raw value; absent defaults to
"Unknown" (lines 112-116 of src/main.py). -/
def patientNameOf : Option PNValue → String
  | some (PNValue.structured fam giv) => fam ++ ", " ++ giv
  | some (PNValue.plain s) => s
  | none => "Unknown"

/-- The modality computation of lines 135-138 of src/main.py: named lookup
defaulting to "Unknown", then fallback by raw tag (0x0008, 0x0060) when the
named result equals "Unknown". -/
def modalityOf (d : DicomData) : String :=
  if d.modality.getD "Unknown" = "Unknown" then
    match rawTagLookup d.rawTags 0x0008 0x0060 with
    | some v => v
    | none => d.modality.getD "Unknown"
  else d.modality.getD "Unknown"

/-- Basename of a path: the suffix after the last slash (os.path.basename). -/
def basenameL (l : List Char) : List Char :=
  (l.reverse.takeWhile (fun c => c != '/')).reverse

/-- os.path.basename on strings. -/
def basename (p : String) : String := String.mk (basenameL p.toList)

/-- One row of the dicom_files table (class DicomFile of src/main.py),
without the autoincrement id column. -/
structure DicomFile where
  filename : String
  patient_id : String
  patient_name : String
  patient_birth_date : String
  patient_sex : String
  patient_age : String
  patient_weight : String
  patient_address : String
  study_date : String
  study_time : String
  study_id : String
  study_modality : String
  study_description : String
  series_date : String
  series_time : String
  series_description : String
  file_path : String
deriving DecidableEq

/-- The record parse_and_store_dicom builds once the three date fields have
been normalized to bd, sd and sed (lines 110-168 of src/main.py). -/
def recordOf (d : DicomData) (file_path bd sd sed : String) : DicomFile :=
  { filename := basename file_path
    patient_id := d.patientID.getD "Unknown"
    patient_name := patientNameOf d.patientNameAttr
    patient_birth_date := bd
    patient_sex := d.patientSex.getD "Unknown"
    patient_age := d.patientAge.getD "Unknown"
    patient_weight := d.patientWeight.getD "Unknown"
    patient_address := d.patientAddress.getD "Unknown"
    study_date := sd
    study_time := d.studyTime.getD "Unknown"
    study_id := d.studyID.getD "Unknown"
    study_modality := modalityOf d
    study_description := d.studyDescription.getD "Unknown"
    series_date := sed
    series_time := d.seriesTime.getD "Unknown"
    series_description := d.seriesDescription.getD "Unknown"
    file_path := file_path }

/-- The metadata extraction of parse_and_store_dicom: the three date-bearing
fields are normalized in source order (patient birth date, study date,
series date); the first failure aborts the extraction with its error. -/
def extractRecord (d : DicomData) (file_path : String) : Except String DicomFile :=
  match normDateE d.patientBirthDate with
  | Except.error msg => Except.error msg
  | Except.ok bd =>
    match normDateE d.studyDate with
    | Except.error msg => Except.error msg
    | Except.ok sd =>
      match normDateE d.seriesDate with
      | Except.error msg => Except.error msg
      | Except.ok sed => Except.ok (recordOf d file_path bd sd sed)

/-- Modelled error text of the IntegrityError raised by the unique
constraint on dicom_files.filename. -/
def dupKeyMsg : String :=
  "duplicate key value violates unique constraint dicom_files_filename_key"

/-- A committed row: the autoincrement id together with the record. -/
structure StoredRecord where
  id : Nat
  row : DicomFile
deriving DecidableEq

/-- The dicom_files table together with the state of the
dicom_files_id_seq sequence (the id the next insert receives). -/
structure Store where
  records : List StoredRecord
  nextId : Nat
deriving DecidableEq

/-- Insert of one record (db.add + db.commit): the unique constraint on
filename rejects a duplicate with an IntegrityError and leaves the table
unchanged; otherwise the row is committed with the next sequence id. -/
def Store.insert (st : Store) (r : DicomFile) : Store × Except String Nat :=
  if st.records.any (fun sr => sr.row.filename == r.filename) then
    (st, Except.error dupKeyMsg)
  else
    ({ records := st.records ++ [{ id := st.nextId, row := r }], nextId := st.nextId + 1 },
     Except.ok st.nextId)

/-- reset_id_sequence of src/main.py: all rows are deleted and committed,
then the sequence is restarted at 1.  When the sequence restart fails the
deletion is already committed, so only the counter keeps its old value; the
exception is caught and logged (the returned flag), never propagated. -/
def reset_id_sequence (st : Store) (counterResetFails : Bool) : Store × Bool :=
  if counterResetFails then ({ records := [], nextId := st.nextId }, true)
  else ({ records := [], nextId := 1 }, false)

/-- Raw bytes of a file: the payload distinguishes byte streams, and parsed
is what pydicom.dcmread yields on them (none when dcmread raises). -/
structure Bytes where
  parsed : Option DicomData
  payload : String
deriving DecidableEq

/-- The uploads directory as an association list from path to bytes; a
write shadows older entries. -/
abbrev FS := List (String × Bytes)

/-- Read the file at a path (the newest write wins). -/
def FS.read (fs : FS) (p : String) : Option Bytes :=
  match fs.find? (fun e => e.1 == p) with
  | some e => some e.2
  | none => none

/-- open(path, "wb") + write: the new content shadows any previous file. -/
def FS.write (fs : FS) (p : String) (b : Bytes) : FS := (p, b) :: fs

/-- os.remove: the path is gone afterwards. -/
def FS.remove (fs : FS) (p : String) : FS := fs.filter (fun e => e.1 != p)

/-- is_valid_dicom of src/main.py: dcmread on the file at the path; any
failure (missing file or parse error) yields false. -/
def is_valid_dicom (fs : FS) (p : String) : Bool :=
  match FS.read fs p with
  | some b => b.parsed.isSome
  | none => false

/-- parse_and_store_dicom of src/main.py: re-read and parse the file,
extract the metadata, insert the row; every failure is re-raised as an
HTTPException whose detail is the stringified exception (the error value).
On success the new store is returned. -/
def parse_and_store_dicom (fs : FS) (st : Store) (file_path : String) :
    Except String Store :=
  match FS.read fs file_path with
  | none => Except.error "could not read file"
  | some b =>
    match b.parsed with
    | none => Except.error "invalid dicom stream"
    | some d =>
      match extractRecord d file_path with
      | Except.error msg => Except.error msg
      | Except.ok r =>
        match Store.insert st r with
        | (_, Except.error msg) => Except.error msg
        | (st2, Except.ok _) => Except.ok st2

/-- The uploads directory constant of src/main.py. -/
def UPLOAD_DIR : String := "uploads"

/-- os.path.join(UPLOAD_DIR, filename). -/
def uploadPath (filename : String) : String := UPLOAD_DIR ++ "/" ++ filename

/-- ASCII lower casing of one character (str.lower on ASCII input). -/
def lowerChar (c : Char) : Char :=
  if 65 ≤ c.toNat ∧ c.toNat ≤ 90 then Char.ofNat (c.toNat + 32) else c

/-- filename.lower().endswith(".dcm"). -/
def endsWithDcm (s : String) : Bool :=
  (s.toList.map lowerChar).reverse.take 4 == ['m', 'c', 'd', '.']

/-- An HTTP-level rejection: status code and human-readable detail. -/
structure Rejection where
  status : Nat
  detail : String
deriving DecidableEq

/-- The success payload of the two upload endpoints. -/
structure UploadOk where
  filename : String
  message : String
deriving DecidableEq

/-- The full mutable state the endpoints act on: uploads directory and
record store. -/
structure SysState where
  fs : FS
  store : Store
deriving DecidableEq

/-- The upload_dicom endpoint (direct upload): extension gate before any
write, write the raw bytes, validate (deleting the file on failure), then
parse-and-store; an extraction or duplicate failure keeps the raw file. -/
def upload_dicom (S : SysState) (uploadFilename : String) (content : Bytes) :
    SysState × Except Rejection UploadOk :=
  if endsWithDcm uploadFilename = false then
    (S, Except.error { status := 400, detail := "Invalid file format. Only DICOM files are allowed" })
  else
    if is_valid_dicom (FS.write S.fs (uploadPath uploadFilename) content)
        (uploadPath uploadFilename) = false then
      ({ S with fs := FS.remove (FS.write S.fs (uploadPath uploadFilename) content)
                        (uploadPath uploadFilename) },
       Except.error { status := 400, detail := "Invalid DICOM file" })
    else
      match parse_and_store_dicom (FS.write S.fs (uploadPath uploadFilename) content)
          S.store (uploadPath uploadFilename) with
      | Except.error msg =>
        ({ S with fs := FS.write S.fs (uploadPath uploadFilename) content },
         Except.error { status := 400, detail := msg })
      | Except.ok st2 =>
        ({ fs := FS.write S.fs (uploadPath uploadFilename) content, store := st2 },
         Except.ok { filename := uploadFilename,
                     message := "File uploaded and metadata stored successfully" })

/-- Drop everything from the first occurrence of a stop character on. -/
def takeUntil (stop : Char) : List Char → List Char
  | [] => []
  | c :: t => if c = stop then [] else c :: takeUntil stop t

/-- ASCII letter test (str.isalpha on ASCII input). -/
def isAsciiAlpha (c : Char) : Bool :=
  (65 ≤ c.toNat && c.toNat ≤ 90) || (97 ≤ c.toNat && c.toNat ≤ 122)

/-- The characters urllib allows in a URL scheme (scheme_chars): ASCII
letters and digits, plus, minus and dot. -/
def schemeChar (c : Char) : Bool :=
  isAsciiAlpha c || isDig c || c = '+' || c = '-' || c = '.'

/-- Split a character list at its first colon, when one exists, into the
part before and the part after it. -/
def splitAtColon : List Char → Option (List Char × List Char)
  | [] => none
  | c :: t =>
    if c = ':' then some ([], t)
    else
      match splitAtColon t with
      | some (pre, post) => some (c :: pre, post)
      | none => none

/-- The scheme split of urllib's urlsplit: when the part before the first
colon is non-empty, starts with an ASCII letter and consists of scheme
characters, the URL continues after the colon; otherwise it is unchanged. -/
def dropScheme (l : List Char) : List Char :=
  match splitAtColon l with
  | some ([], _) => l
  | some (c0 :: pre, post) =>
    if isAsciiAlpha c0 && (c0 :: pre).all schemeChar then post else l
  | none => l

/-- The network-location split of urllib's urlsplit: when the remainder
starts with "//", everything up to the next slash, question mark or hash
is the netloc and the URL continues from that delimiter. -/
def dropNetloc : List Char → List Char
  | '/' :: '/' :: t => t.dropWhile (fun c => !(c = '/' || c = '?' || c = '#'))
  | l => l

/-- urlparse(url).path: strip the scheme, the network location when the
remainder starts with "//", then the fragment (after the first hash) and
the query (after the first question mark). -/
def urlparsePath (url : String) : String :=
  String.mk (takeUntil '?' (takeUntil '#' (dropNetloc (dropScheme url.toList))))

/-- os.path.basename(urlparse(url).path): the URL entry point's source
filename. -/
def urlPathBasename (url : String) : String :=
  String.mk (basenameL (takeUntil '?' (takeUntil '#' (dropNetloc (dropScheme url.toList)))))

/-- str() of a starlette HTTPException: "status: detail"; the
upload_dicom_from_url endpoint catches every exception of its body and
re-raises it as a 500 whose detail is that string. -/
def wrap500 (r : Rejection) : Rejection :=
  { status := 500, detail := toString r.status ++ ": " ++ r.detail }

/-- The upload_dicom_from_url endpoint: fetch (non-200 status rejects
before any write), extension gate on the URL path basename before any
write, then the same write/validate/parse-and-store pipeline; every
rejection of the body is wrapped into a 500 by the enclosing handler. -/
def upload_dicom_from_url (S : SysState) (url : String) (status : Nat) (body : Bytes) :
    SysState × Except Rejection UploadOk :=
  if status ≠ 200 then
    (S, Except.error (wrap500 { status := 400, detail := "Failed to download the file" }))
  else
    if endsWithDcm (urlPathBasename url) = false then
      (S, Except.error (wrap500 { status := 400, detail := "Invalid file format. Only DICOM files are allowed" }))
    else
      if is_valid_dicom (FS.write S.fs (uploadPath (urlPathBasename url)) body)
          (uploadPath (urlPathBasename url)) = false then
        ({ S with fs := FS.remove (FS.write S.fs (uploadPath (urlPathBasename url)) body)
                          (uploadPath (urlPathBasename url)) },
         Except.error (wrap500 { status := 400, detail := "Invalid DICOM file" }))
      else
        match parse_and_store_dicom (FS.write S.fs (uploadPath (urlPathBasename url)) body)
            S.store (uploadPath (urlPathBasename url)) with
        | Except.error msg =>
          ({ S with fs := FS.write S.fs (uploadPath (urlPathBasename url)) body },
           Except.error (wrap500 { status := 400, detail := msg }))
        | Except.ok st2 =>
          ({ fs := FS.write S.fs (uploadPath (urlPathBasename url)) body, store := st2 },
           Except.ok { filename := urlPathBasename url,
                       message := "File uploaded and metadata stored successfully" })

/-- The get_metadata endpoint: first row whose filename matches, or a 404
"File not found" rejection. -/
def get_metadata (S : SysState) (filename : String) : Except Rejection DicomFile :=
  match S.store.records.find? (fun sr => sr.row.filename == filename) with
  | some sr => Except.ok sr.row
  | none => Except.error { status := 404, detail := "File not found" }

/-- The delete_all_records endpoint: reset_id_sequence never propagates an
error, so the endpoint always answers with its success message. -/
def delete_all_records (S : SysState) (counterResetFails : Bool) : SysState × String :=
  ({ S with store := (reset_id_sequence S.store counterResetFails).1 },
   "All records deleted and ID sequence reset to 1")
/-- The spec's notion of an 8-digit YYYYMMDD calendar date: exactly eight
ASCII digits, month 1-12, day at least 1 and within the month, year at
least 1 (the claims' "parses as an 8-digit YYYYMMDD string"). -/
def parse8YYYYMMDD (s : String) : Option (Nat × Nat × Nat) :=
  match s.toList with
  | [c1, c2, c3, c4, c5, c6, c7, c8] =>
    if isDig c1 ∧ isDig c2 ∧ isDig c3 ∧ isDig c4 ∧
        isDig c5 ∧ isDig c6 ∧ isDig c7 ∧ isDig c8 then
      if 1 ≤ dv c1 * 1000 + dv c2 * 100 + dv c3 * 10 + dv c4 ∧
          1 ≤ dv c5 * 10 + dv c6 ∧ dv c5 * 10 + dv c6 ≤ 12 ∧
          1 ≤ dv c7 * 10 + dv c8 ∧
          dv c7 * 10 + dv c8 ≤
            daysInMonth (dv c1 * 1000 + dv c2 * 100 + dv c3 * 10 + dv c4)
              (dv c5 * 10 + dv c6) then
        some (dv c1 * 1000 + dv c2 * 100 + dv c3 * 10 + dv c4,
              dv c5 * 10 + dv c6, dv c7 * 10 + dv c8)
      else none
    else none
  | _ => none

/-- A parsed dataset with every attribute absent and no raw tags. -/
def emptyDicom : DicomData :=
  { patientID := none, patientNameAttr := none, patientBirthDate := none,
    patientSex := none, patientAge := none, patientWeight := none, patientAddress := none,
    studyDate := none, studyTime := none, studyID := none, modality := none,
    studyDescription := none, seriesDate := none, seriesTime := none,
    seriesDescription := none, rawTags := [] }

/-- No named modality attribute, raw tag (0008,0060) carrying "CT". -/
def dCT : DicomData := { emptyDicom with rawTags := [((0x0008, 0x0060), "CT")] }

/-- Named modality present with the literal value "Unknown", raw tag "MR". -/
def dMR : DicomData :=
  { emptyDicom with modality := some "Unknown", rawTags := [((0x0008, 0x0060), "MR")] }

/-- Patient birth date "19850203", other dates absent. -/
def dDates : DicomData := { emptyDicom with patientBirthDate := some "19850203" }

/-- Malformed patient birth date "abcd0101". -/
def dBadDate : DicomData := { emptyDicom with patientBirthDate := some "abcd0101" }

/-- Six-character study date "198523". -/
def dShort : DicomData := { emptyDicom with studyDate := some "198523" }

def bGood : Bytes := { parsed := some emptyDicom, payload := "dicom payload one" }

def bGood2 : Bytes := { parsed := some emptyDicom, payload := "dicom payload two" }

def bInvalid : Bytes := { parsed := none, payload := "not a dicom stream" }

def bBadDate : Bytes := { parsed := some dBadDate, payload := "dicom with bad date" }

/-- Empty uploads directory, empty table, sequence at 1. -/
def S0 : SysState := { fs := [], store := { records := [], nextId := 1 } }

/-- The extraction result for emptyDicom uploaded as a.dcm. -/
def rEmptyA : DicomFile := recordOf emptyDicom (uploadPath "a.dcm") "" "" ""

/-- The state after a successful ingestion of a.dcm into S0. -/
def S1 : SysState :=
  { fs := FS.write [] (uploadPath "a.dcm") bGood,
    store := { records := [{ id := 1, row := rEmptyA }], nextId := 2 } }

/-- The record extracted from dDates. -/
def rDates : DicomFile := recordOf dDates (uploadPath "w.dcm") "03-Feb-1985" "" ""

/-- The record extracted from dShort: study date "03-Feb-1985". -/
def rShort : DicomFile := recordOf dShort (uploadPath "s.dcm") "" "03-Feb-1985" ""

/-- Some date-bearing attribute is present, non-empty, and rejected by the
code's strptime %Y%m%d parse. -/
def badDateField (d : DicomData) : Prop :=
  ∃ s, (d.patientBirthDate = some s ∨ d.studyDate = some s ∨ d.seriesDate = some s) ∧
    s ≠ "" ∧ strptimeYmd s = none

/-- The record extracted from dCT. -/
def rCT : DicomFile := recordOf dCT (uploadPath "ct.dcm") "" "" ""

/-- The record extracted from dMR. -/
def rMR : DicomFile := recordOf dMR (uploadPath "mr.dcm") "" "" ""

/-- Rejection of a wrong filename extension (UnsupportedExtensionError). -/
def rejUnsupported : Rejection :=
  { status := 400, detail := "Invalid file format. Only DICOM files are allowed" }

/-- Rejection of a byte stream that fails validation (InvalidFormatError). -/
def rejInvalid : Rejection := { status := 400, detail := "Invalid DICOM file" }

/-- Rejection of a malformed date value (ExtractionError), for the value
"abcd0101". -/
def rejExtract : Rejection := { status := 400, detail := strptimeErrMsg "abcd0101" }

/-- Rejection of a duplicate filename (DuplicateKeyError). -/
def rejDup : Rejection := { status := 400, detail := dupKeyMsg }

/-- Rejection of a lookup miss (NotFoundError). -/
def rejNotFound : Rejection := { status := 404, detail := "File not found" }

/-- Rejection of a failed remote fetch (FetchError), as wrapped by the URL
endpoint's enclosing handler. -/
def urejFetch : Rejection := wrap500 { status := 400, detail := "Failed to download the file" }

lemma isDig_iff {c : Char} : isDig c = true ↔ 48 ≤ c.toNat ∧ c.toNat ≤ 57 := by
  simp [isDig]

lemma dv_le_nine {c : Char} (h : isDig c = true) : dv c ≤ 9 := by
  rw [isDig_iff] at h
  unfold dv
  omega

lemma daysInMonth_le_31 (y m : Nat) : daysInMonth y m ≤ 31 := by
  unfold daysInMonth
  split_ifs <;> omega

lemma dayAlts_head_pos {a b : Char} {t : List Char} (ha : isDig a = true) (hb : isDig b = true)
    (h1 : 1 ≤ dv a * 10 + dv b) (h31 : dv a * 10 + dv b ≤ 31) :
    ∃ rest, dayAlts (a :: b :: t) = (dv a * 10 + dv b, t) :: rest := by
  have h9a := dv_le_nine ha
  have h9b := dv_le_nine hb
  simp only [dayAlts]
  rcases (show dv a = 0 ∨ dv a = 1 ∨ dv a = 2 ∨ dv a = 3 by omega) with h | h | h | h
  · rw [if_neg (by rintro ⟨-, -, h3, -⟩; omega),
      if_neg (by rintro ⟨-, -, h3, -⟩; omega),
      if_pos ⟨ha, hb, h, by omega⟩,
      if_neg (by rintro ⟨-, h4, -⟩; omega)]
    have hv : dv a * 10 + dv b = dv b := by omega
    rw [hv]
    exact ⟨[], by simp⟩
  · rw [if_neg (by rintro ⟨-, -, h3, -⟩; omega),
      if_pos ⟨ha, hb, by omega, by omega⟩,
      if_neg (by rintro ⟨-, -, h3, -⟩; omega),
      if_pos ⟨ha, by omega, by omega⟩]
    have hv : dv a * 10 + dv b = 10 * dv a + dv b := by omega
    rw [hv]
    exact ⟨[(dv a, b :: t)], by simp⟩
  · rw [if_neg (by rintro ⟨-, -, h3, -⟩; omega),
      if_pos ⟨ha, hb, by omega, by omega⟩,
      if_neg (by rintro ⟨-, -, h3, -⟩; omega),
      if_pos ⟨ha, by omega, by omega⟩]
    have hv : dv a * 10 + dv b = 10 * dv a + dv b := by omega
    rw [hv]
    exact ⟨[(dv a, b :: t)], by simp⟩
  · rw [if_pos ⟨ha, hb, h, by omega⟩,
      if_neg (by rintro ⟨-, -, -, h4⟩; omega),
      if_neg (by rintro ⟨-, -, h3, -⟩; omega),
      if_pos ⟨ha, by omega, by omega⟩]
    have hv : dv a * 10 + dv b = 30 + dv b := by omega
    rw [hv]
    exact ⟨[(dv a, b :: t)], by simp⟩

lemma monthAlts_head_pos {a b : Char} {t : List Char} (ha : isDig a = true) (hb : isDig b = true)
    (h1 : 1 ≤ dv a * 10 + dv b) (h12 : dv a * 10 + dv b ≤ 12) :
    ∃ rest, monthAlts (a :: b :: t) = (dv a * 10 + dv b, t) :: rest := by
  have h9a := dv_le_nine ha
  have h9b := dv_le_nine hb
  simp only [monthAlts]
  rcases (show dv a = 0 ∨ dv a = 1 by omega) with h | h
  · rw [if_neg (by rintro ⟨-, -, h3, -⟩; omega),
      if_pos ⟨ha, hb, h, by omega⟩,
      if_neg (by rintro ⟨-, h4, -⟩; omega)]
    have hv : dv a * 10 + dv b = dv b := by omega
    rw [hv]
    exact ⟨[], by simp⟩
  · rw [if_pos ⟨ha, hb, h, by omega⟩,
      if_neg (by rintro ⟨-, -, h3, -⟩; omega),
      if_pos ⟨ha, by omega, by omega⟩]
    have hv : dv a * 10 + dv b = 10 + dv b := by omega
    rw [hv]
    exact ⟨[(dv a, b :: t)], by simp⟩

lemma strptimeMD_four_pos {e f g h : Char}
    (he : isDig e = true) (hf : isDig f = true)
    (hg : isDig g = true) (hh : isDig h = true)
    (hm1 : 1 ≤ dv e * 10 + dv f) (hm12 : dv e * 10 + dv f ≤ 12)
    (hd1 : 1 ≤ dv g * 10 + dv h) (hd31 : dv g * 10 + dv h ≤ 31) :
    strptimeMD [e, f, g, h] = some (dv e * 10 + dv f, dv g * 10 + dv h) := by
  obtain ⟨mrest, hm⟩ := monthAlts_head_pos he hf hm1 hm12 (t := [g, h])
  obtain ⟨drest, hd⟩ := dayAlts_head_pos hg hh hd1 hd31 (t := [])
  simp only [strptimeMD]
  rw [hm, List.findSome?_cons]
  simp [hd]

lemma monthAlts_mem {a b : Char} {t : List Char} {p : Nat × List Char}
    (hp : p ∈ monthAlts (a :: b :: t)) :
    (isDig a = true ∧ isDig b = true ∧ 1 ≤ dv a * 10 + dv b ∧ dv a * 10 + dv b ≤ 12 ∧
       p = (dv a * 10 + dv b, t)) ∨
    (isDig a = true ∧ 1 ≤ dv a ∧ p = (dv a, b :: t)) := by
  simp only [monthAlts, List.mem_append] at hp
  rcases hp with (hp | hp) | hp
  · split_ifs at hp with hc
    · simp only [List.mem_singleton] at hp
      obtain ⟨ha, hb, h1, h2⟩ := hc
      have h9b := dv_le_nine hb
      refine Or.inl ⟨ha, hb, by omega, by omega, ?_⟩
      rw [hp]
      exact congrArg (fun n => (n, t)) (by omega : 10 + dv b = dv a * 10 + dv b)
    · simp at hp
  · split_ifs at hp with hc
    · simp only [List.mem_singleton] at hp
      obtain ⟨ha, hb, h1, h2⟩ := hc
      have h9b := dv_le_nine hb
      refine Or.inl ⟨ha, hb, by omega, by omega, ?_⟩
      rw [hp]
      exact congrArg (fun n => (n, t)) (by omega : dv b = dv a * 10 + dv b)
    · simp at hp
  · split_ifs at hp with hc
    · simp only [List.mem_singleton] at hp
      obtain ⟨ha, h1, h2⟩ := hc
      exact Or.inr ⟨ha, h1, hp⟩
    · simp at hp

lemma dayAlts_mem {a b : Char} {t : List Char} {p : Nat × List Char}
    (hp : p ∈ dayAlts (a :: b :: t)) :
    (isDig a = true ∧ isDig b = true ∧ 1 ≤ dv a * 10 + dv b ∧ dv a * 10 + dv b ≤ 31 ∧
       p = (dv a * 10 + dv b, t)) ∨
    (isDig a = true ∧ 1 ≤ dv a ∧ p = (dv a, b :: t)) := by
  simp only [dayAlts, List.mem_append] at hp
  rcases hp with ((hp | hp) | hp) | hp
  · split_ifs at hp with hc
    · simp only [List.mem_singleton] at hp
      obtain ⟨ha, hb, h1, h2⟩ := hc
      have h9b := dv_le_nine hb
      refine Or.inl ⟨ha, hb, by omega, by omega, ?_⟩
      rw [hp]
      exact congrArg (fun n => (n, t)) (by omega : 30 + dv b = dv a * 10 + dv b)
    · simp at hp
  · split_ifs at hp with hc
    · simp only [List.mem_singleton] at hp
      obtain ⟨ha, hb, h1, h2⟩ := hc
      have h9b := dv_le_nine hb
      refine Or.inl ⟨ha, hb, by omega, by omega, ?_⟩
      rw [hp]
      exact congrArg (fun n => (n, t)) (by omega : 10 * dv a + dv b = dv a * 10 + dv b)
    · simp at hp
  · split_ifs at hp with hc
    · simp only [List.mem_singleton] at hp
      obtain ⟨ha, hb, h1, h2⟩ := hc
      have h9b := dv_le_nine hb
      refine Or.inl ⟨ha, hb, by omega, by omega, ?_⟩
      rw [hp]
      exact congrArg (fun n => (n, t)) (by omega : dv b = dv a * 10 + dv b)
    · simp at hp
  · split_ifs at hp with hc
    · simp only [List.mem_singleton] at hp
      obtain ⟨ha, h1, h2⟩ := hc
      exact Or.inr ⟨ha, h1, hp⟩
    · simp at hp

lemma strptimeMD_four_inv {e f g h : Char} {m d : Nat}
    (hs : strptimeMD [e, f, g, h] = some (m, d)) :
    isDig e = true ∧ isDig f = true ∧ isDig g = true ∧ isDig h = true ∧
    m = dv e * 10 + dv f ∧ d = dv g * 10 + dv h ∧
    1 ≤ m ∧ m ≤ 12 ∧ 1 ≤ d ∧ d ≤ 31 := by
  simp only [strptimeMD] at hs
  split at hs
  case h_2 => exact absurd hs (by simp)
  case h_1 x m' d' r heq =>
    rcases r with _ | ⟨rh, rt⟩
    case cons => 
      rw [if_neg (by simp)] at hs
      exact absurd hs (by simp)
    case nil =>
      rw [if_pos rfl] at hs
      obtain ⟨hm, hd⟩ : m' = m ∧ d' = d := by simpa using hs
      subst hm
      subst hd
      obtain ⟨p, hpmem, hfp⟩ := List.exists_of_findSome?_eq_some heq
      rcases hq : dayAlts p.2 with _ | ⟨q, qrest⟩
      · rw [hq] at hfp
        exact absurd hfp (by simp)
      · rw [hq] at hfp
        simp only [Option.some.injEq, Prod.mk.injEq] at hfp
        obtain ⟨hp1, hq1, hq2⟩ := hfp
        rcases monthAlts_mem hpmem with ⟨he, hf, h1, h12, hpe⟩ | ⟨he, h1, hpe⟩
        · rw [hpe] at hq
          have hqmem : q ∈ dayAlts [g, h] := by rw [hq]; exact List.mem_cons_self _ _
          rcases dayAlts_mem hqmem with ⟨hg, hh, hd1, hd31, hqe⟩ | ⟨hg, hd1, hqe⟩
          · rw [hpe] at hp1
            rw [hqe] at hq1 hq2
            refine ⟨he, hf, hg, hh, ?_, ?_, ?_, ?_, ?_, ?_⟩ <;> simp_all
          · rw [hqe] at hq2
            simp at hq2
        · rw [hpe] at hq
          have hqmem : q ∈ dayAlts [f, g, h] := by rw [hq]; exact List.mem_cons_self _ _
          rcases dayAlts_mem hqmem with ⟨-, -, -, -, hqe⟩ | ⟨-, -, hqe⟩ <;>
            rw [hqe] at hq2 <;> simp at hq2

lemma strptimeYmd_of_parse8 {s : String} {y m d : Nat}
    (hp : parse8YYYYMMDD s = some (y, m, d)) : strptimeYmd s = some (y, m, d) := by
  unfold parse8YYYYMMDD at hp
  split at hp
  case h_2 => exact absurd hp (by simp)
  case h_1 c1 c2 c3 c4 c5 c6 c7 c8 heq =>
    split_ifs at hp with hdig hrange
    · obtain ⟨h1, h2, h3, h4, h5, h6, h7, h8⟩ := hdig
      obtain ⟨hy1, hm1, hm12, hd1, hdm⟩ := hrange
      simp only [Option.some.injEq, Prod.mk.injEq] at hp
      obtain ⟨hy, hm, hd⟩ := hp
      have h31 := daysInMonth_le_31 (dv c1 * 1000 + dv c2 * 100 + dv c3 * 10 + dv c4)
        (dv c5 * 10 + dv c6)
      simp only [strptimeYmd, heq]
      rw [if_pos ⟨h1, h2, h3, h4⟩,
        strptimeMD_four_pos h5 h6 h7 h8 (by omega) (by omega) (by omega) (by omega)]
      simp only []
      rw [if_pos ⟨by omega, hdm⟩, hy, hm, hd]

lemma parse8_of_strptime {s : String} {y m d : Nat} (h8 : s.toList.length = 8)
    (hs : strptimeYmd s = some (y, m, d)) : parse8YYYYMMDD s = some (y, m, d) := by
  unfold strptimeYmd at hs
  split at hs
  case h_2 =>
    exact absurd hs (by simp)
  case h_1 y1 y2 y3 y4 rest heq =>
    have hr4 : rest.length = 4 := by
      rw [heq] at h8
      simp at h8
      omega
    split_ifs at hs with hdig
    obtain ⟨h1, h2, h3, h4⟩ := hdig
    match rest, hr4 with
    | [c5, c6, c7, c8], _ =>
      split at hs
      case h_2 =>
        exact absurd hs (by simp)
      case h_1 md m0 d0 heq2 =>
        obtain ⟨h5, h6, h7, h8c, hm', hd', hm1, hm12, hd1, hd31⟩ := strptimeMD_four_inv heq2
        split_ifs at hs with hcal
        obtain ⟨hcy, hcd⟩ := hcal
        simp only [Option.some.injEq, Prod.mk.injEq] at hs
        obtain ⟨hy, hm, hd⟩ := hs
        simp only [parse8YYYYMMDD, heq]
        rw [if_pos ⟨h1, h2, h3, h4, h5, h6, h7, h8c⟩]
        rw [if_pos ⟨by omega, by omega, by omega, by omega, by rw [← hm', ← hd']; exact hcd⟩]
        rw [hy, ← hm, ← hd, hm', hd']

/-- On eight-character inputs the CPython strptime("%Y%m%d") parse coincides
with the strict 8-digit YYYYMMDD calendar-date reading; the flexible
month/day groups only matter for shorter inputs. -/
theorem strptime_eq_parse8_of_len8 {s : String} (h8 : s.toList.length = 8) :
    strptimeYmd s = parse8YYYYMMDD s := by
  rcases hA : strptimeYmd s with _ | ⟨⟨y, m, d⟩⟩
  · rcases hB : parse8YYYYMMDD s with _ | ⟨⟨y, m, d⟩⟩
    · rfl
    · have h := strptimeYmd_of_parse8 hB
      rw [hA] at h
      exact absurd h (by simp)
  · rw [parse8_of_strptime h8 hA]

lemma normDateE_absent : normDateE none = Except.ok "" := rfl

lemma normDateE_ok_spec {src : Option String} {out : String}
    (h : normDateE src = Except.ok out) :
    (src = none → out = "") ∧
    (src = some "" → out = "") ∧
    (∀ s y m d, src = some s → parse8YYYYMMDD s = some (y, m, d) →
      out = strftimeDMonY y m d) := by
  rcases src with _ | s
  · refine ⟨fun _ => ?_, by simp, by simp⟩
    have h0 := normDateE_absent.symm.trans h
    injection h0 with h0
    exact h0.symm
  · unfold normDateE at h
    simp only [Option.getD_some] at h
    refine ⟨by simp, ?_, ?_⟩
    · rintro hs
      simp only [Option.some.injEq] at hs
      subst hs
      rw [if_pos rfl] at h
      simpa using h.symm
    · rintro s' y m d hs hp
      simp only [Option.some.injEq] at hs
      subst hs
      have h8 : s.toList.length = 8 := by
        unfold parse8YYYYMMDD at hp
        split at hp
        case h_2 => exact absurd hp (by simp)
        case h_1 c1 c2 c3 c4 c5 c6 c7 c8 heq => rw [heq]; rfl
      have hne : s ≠ "" := by
        intro hs0
        rw [hs0] at h8
        simp at h8
      rw [if_neg hne] at h
      rw [strptime_eq_parse8_of_len8 h8, hp] at h
      simpa using h.symm

lemma normDateE_ok_of_valid {s : String} {y m d : Nat}
    (hp : parse8YYYYMMDD s = some (y, m, d)) :
    normDateE (some s) = Except.ok (strftimeDMonY y m d) := by
  have h8 : s.toList.length = 8 := by
    unfold parse8YYYYMMDD at hp
    split at hp
    case h_2 => exact absurd hp (by simp)
    case h_1 c1 c2 c3 c4 c5 c6 c7 c8 heq => rw [heq]; rfl
  have hne : s ≠ "" := by
    intro hs0
    rw [hs0] at h8
    simp at h8
  unfold normDateE
  simp only [Option.getD_some]
  rw [if_neg hne, strptime_eq_parse8_of_len8 h8, hp]

lemma normDateE_err {s : String} (hne : s ≠ "") (hbad : strptimeYmd s = none) :
    normDateE (some s) = Except.error (strptimeErrMsg s) := by
  unfold normDateE
  simp only [Option.getD_some]
  rw [if_neg hne, hbad]

lemma extract_ok_iff {d : DicomData} {fp : String} {r : DicomFile} :
    extractRecord d fp = Except.ok r ↔
      ∃ bd sd sed, normDateE d.patientBirthDate = Except.ok bd ∧
        normDateE d.studyDate = Except.ok sd ∧
        normDateE d.seriesDate = Except.ok sed ∧
        r = recordOf d fp bd sd sed := by
  unfold extractRecord
  rcases h1 : normDateE d.patientBirthDate with m1 | bd <;>
    rcases h2 : normDateE d.studyDate with m2 | sd <;>
    rcases h3 : normDateE d.seriesDate with m3 | sed <;>
    simp [eq_comm]

lemma FS.read_write (fs : FS) (p : String) (b : Bytes) :
    FS.read (FS.write fs p b) p = some b := by
  unfold FS.read FS.write
  simp [List.find?_cons]

lemma find?_filter_ne (fs : FS) (p : String) :
    (fs.filter (fun e => e.1 != p)).find? (fun e => e.1 == p) = none := by
  induction fs with
  | nil => rfl
  | cons e t ih =>
    simp only [List.filter_cons]
    by_cases he : e.1 = p
    · rw [if_neg (by simp [he])]
      exact ih
    · rw [if_pos (by simp [he])]
      rw [List.find?_cons_of_neg _ (by simp [he])]
      exact ih

lemma FS.read_remove (fs : FS) (p : String) : FS.read (FS.remove fs p) p = none := by
  unfold FS.read FS.remove
  rw [find?_filter_ne]

lemma Store.insert_dup {st : Store} {r : DicomFile}
    (hdup : ∃ sr ∈ st.records, sr.row.filename = r.filename) :
    Store.insert st r = (st, Except.error dupKeyMsg) := by
  unfold Store.insert
  rw [if_pos]
  obtain ⟨sr, hmem, hfn⟩ := hdup
  exact List.any_eq_true.mpr ⟨sr, hmem, by simp [hfn]⟩

lemma Store.insert_fresh {st : Store} {r : DicomFile}
    (hnew : ∀ sr ∈ st.records, sr.row.filename ≠ r.filename) :
    Store.insert st r =
      ({ records := st.records ++ [{ id := st.nextId, row := r }], nextId := st.nextId + 1 },
       Except.ok st.nextId) := by
  unfold Store.insert
  rw [if_neg]
  intro hc
  obtain ⟨sr, hmem, hfn⟩ := List.any_eq_true.mp hc
  exact hnew sr hmem (by simpa using hfn)

lemma is_valid_write (fs : FS) (p : String) (b : Bytes) :
    is_valid_dicom (FS.write fs p b) p = b.parsed.isSome := by
  unfold is_valid_dicom
  rw [FS.read_write]

lemma parse_and_store_write {fs : FS} {st : Store} {p : String} {b : Bytes} {d : DicomData}
    (hp : b.parsed = some d) :
    parse_and_store_dicom (FS.write fs p b) st p =
      (match extractRecord d p with
       | Except.error msg => Except.error msg
       | Except.ok r =>
         match Store.insert st r with
         | (_, Except.error msg) => Except.error msg
         | (st2, Except.ok _) => Except.ok st2) := by
  unfold parse_and_store_dicom
  rw [FS.read_write]
  simp only [hp]

lemma extract_filename {d : DicomData} {fp : String} {r : DicomFile}
    (h : extractRecord d fp = Except.ok r) : r.filename = basename fp := by
  obtain ⟨bd, sd, sed, -, -, -, hr⟩ := extract_ok_iff.mp h
  rw [hr]
  rfl

lemma upload_dicom_dup {S : SysState} {fn : String} {b : Bytes} {d : DicomData} {r : DicomFile}
    (hext : endsWithDcm fn = true) (hp : b.parsed = some d)
    (hr : extractRecord d (uploadPath fn) = Except.ok r)
    (hdup : ∃ sr ∈ S.store.records, sr.row.filename = r.filename) :
    upload_dicom S fn b =
      ({ S with fs := FS.write S.fs (uploadPath fn) b },
       Except.error { status := 400, detail := dupKeyMsg }) := by
  unfold upload_dicom
  rw [hext]
  rw [if_neg (by simp)]
  rw [is_valid_write, hp]
  rw [if_neg (by simp)]
  rw [parse_and_store_write hp, hr]
  simp only []
  rw [Store.insert_dup hdup]

/-- Claim C1: for every date-bearing field of the extracted record (patient
birth date, study date, series date), an absent or empty source value is
stored as the empty string, and a source value that is a valid 8-digit
YYYYMMDD string is stored reformatted as DD-Mon-YYYY. -/
theorem extract_dates_reformat_C1 (d : DicomData) (fp : String) (r : DicomFile)
    (hok : extractRecord d fp = Except.ok r) :
    ((d.patientBirthDate = none → r.patient_birth_date = "") ∧
     (d.patientBirthDate = some "" → r.patient_birth_date = "") ∧
     (∀ s y m dd, d.patientBirthDate = some s → parse8YYYYMMDD s = some (y, m, dd) →
        r.patient_birth_date = strftimeDMonY y m dd)) ∧
    ((d.studyDate = none → r.study_date = "") ∧
     (d.studyDate = some "" → r.study_date = "") ∧
     (∀ s y m dd, d.studyDate = some s → parse8YYYYMMDD s = some (y, m, dd) →
        r.study_date = strftimeDMonY y m dd)) ∧
    ((d.seriesDate = none → r.series_date = "") ∧
     (d.seriesDate = some "" → r.series_date = "") ∧
     (∀ s y m dd, d.seriesDate = some s → parse8YYYYMMDD s = some (y, m, dd) →
        r.series_date = strftimeDMonY y m dd)) := by
  obtain ⟨bd, sd, sed, h1, h2, h3, hr⟩ := extract_ok_iff.mp hok
  subst hr
  exact ⟨normDateE_ok_spec h1, normDateE_ok_spec h2, normDateE_ok_spec h3⟩

/-- Witness for C1: birth date 19850203 is stored as 03-Feb-1985, the absent
study and series dates as the empty string. -/
theorem extract_dates_reformat_C1_witness :
    extractRecord dDates (uploadPath "w.dcm") = Except.ok rDates ∧
    rDates.patient_birth_date = "03-Feb-1985" ∧
    rDates.study_date = "" ∧ rDates.series_date = "" := by
  have hok : extractRecord dDates (uploadPath "w.dcm") = Except.ok rDates := rfl
  have h := extract_dates_reformat_C1 dDates (uploadPath "w.dcm") rDates hok
  refine ⟨hok, ?_, h.2.1.1 rfl, h.2.2.1 rfl⟩
  rw [h.1.2.2 "19850203" 1985 2 3 rfl rfl]
  rfl

/-- Counterexample to claim C2 as stated: the study date "198523" is
present, non-empty, and is not a valid 8-digit YYYYMMDD calendar date, yet
extraction succeeds (Python strptime %Y%m%d also accepts one- and two-digit
month and day groups) and the record is stored with study_date
"03-Feb-1985" instead of raising an ExtractionError. -/
theorem strict_date_claim_refuted_C2 :
    dShort.studyDate = some "198523" ∧ "198523" ≠ "" ∧
    parse8YYYYMMDD "198523" = none ∧
    extractRecord dShort (uploadPath "s.dcm") = Except.ok rShort ∧
    rShort.study_date = "03-Feb-1985" ∧
    parse_and_store_dicom
        (FS.write [] (uploadPath "s.dcm") { parsed := some dShort, payload := "p" })
        { records := [], nextId := 1 } (uploadPath "s.dcm") =
      Except.ok { records := [{ id := 1, row := rShort }], nextId := 2 } :=
  ⟨rfl, by decide, rfl, rfl, rfl, rfl⟩

/-- Claim C2 (amended): for every parsed source in which some date-bearing
field is present, non-empty, and rejected by the code's %Y%m%d parse (which
accepts a 4-digit year followed by 1-2-digit month and day; in particular it
rejects every malformed 8-character value such as "abcd0101", though it
accepts some shorter digit strings such as "198523"), parse-and-store fails
with an extraction error and no record is stored. -/
theorem malformed_date_rejected_C2 (fs : FS) (st : Store) (p : String) (b : Bytes)
    (d : DicomData) (hread : FS.read fs p = some b) (hparse : b.parsed = some d)
    (hbad : badDateField d) :
    ∃ msg, parse_and_store_dicom fs st p = Except.error msg := by
  unfold parse_and_store_dicom
  rw [hread]
  simp only [hparse]
  rcases hx : extractRecord d p with msg | r
  · exact ⟨msg, rfl⟩
  · exfalso
    obtain ⟨bd, sd, sed, h1, h2, h3, -⟩ := extract_ok_iff.mp hx
    obtain ⟨s, hfield, hne, hbadp⟩ := hbad
    rcases hfield with hf | hf | hf
    · rw [hf, normDateE_err hne hbadp] at h1
      exact absurd h1 (by simp)
    · rw [hf, normDateE_err hne hbadp] at h2
      exact absurd h2 (by simp)
    · rw [hf, normDateE_err hne hbadp] at h3
      exact absurd h3 (by simp)

/-- Witness for the amended C2: a source whose birth date is "abcd0101" is
rejected by parse-and-store. -/
theorem malformed_date_rejected_C2_witness :
    ∃ msg, parse_and_store_dicom (FS.write [] (uploadPath "m.dcm") bBadDate)
        { records := [], nextId := 1 } (uploadPath "m.dcm") = Except.error msg :=
  malformed_date_rejected_C2 (FS.write [] (uploadPath "m.dcm") bBadDate)
    { records := [], nextId := 1 } (uploadPath "m.dcm") bBadDate dBadDate
    (FS.read_write [] (uploadPath "m.dcm") bBadDate) rfl
    ⟨"abcd0101", Or.inl rfl, by decide, rfl⟩

/-- Claim C3: with the named modality attribute absent, the extracted
study_modality is the value of raw tag (0x0008, 0x0060) when that tag is
present, and the "Unknown" default otherwise. -/
theorem modality_fallback_C3 (d : DicomData) (fp : String) (r : DicomFile)
    (hmod : d.modality = none) (hok : extractRecord d fp = Except.ok r) :
    r.study_modality = (rawTagLookup d.rawTags 0x0008 0x0060).getD "Unknown" := by
  obtain ⟨bd, sd, sed, -, -, -, hr⟩ := extract_ok_iff.mp hok
  subst hr
  show modalityOf d = _
  unfold modalityOf
  rw [hmod]
  simp only [Option.getD_none, if_true]
  rcases hx : rawTagLookup d.rawTags 0x0008 0x0060 with _ | v <;> rfl

/-- Witness for C3: a source missing the named modality attribute but
containing raw tag (0008,0060) = "CT" yields study_modality "CT". -/
theorem modality_fallback_C3_witness :
    extractRecord dCT (uploadPath "ct.dcm") = Except.ok rCT ∧
    rCT.study_modality = "CT" := by
  have hok : extractRecord dCT (uploadPath "ct.dcm") = Except.ok rCT := rfl
  refine ⟨hok, ?_⟩
  rw [modality_fallback_C3 dCT (uploadPath "ct.dcm") rCT rfl hok]
  rfl

/-- Claim C10: a named modality attribute whose value is the literal string
"Unknown" is indistinguishable from an absent modality attribute: the
extraction result is identical, and the raw-tag fallback lookup governs the
stored study_modality in both cases. -/
theorem modality_unknown_literal_C10 :
    (∀ (d : DicomData) (fp : String),
      extractRecord { d with modality := some "Unknown" } fp =
        extractRecord { d with modality := none } fp) ∧
    (∀ (d : DicomData) (fp : String) (r : DicomFile), d.modality = some "Unknown" →
      extractRecord d fp = Except.ok r →
      r.study_modality = (rawTagLookup d.rawTags 0x0008 0x0060).getD "Unknown") := by
  constructor
  · intro d fp
    rfl
  · intro d fp r hmod hok
    obtain ⟨bd, sd, sed, -, -, -, hr⟩ := extract_ok_iff.mp hok
    subst hr
    show modalityOf d = _
    unfold modalityOf
    rw [hmod]
    simp only [Option.getD_some, if_true]
    rcases hx : rawTagLookup d.rawTags 0x0008 0x0060 with _ | v <;> rfl

/-- Witness for C10: a present modality attribute equal to "Unknown" still
triggers the raw-tag fallback, here yielding "MR". -/
theorem modality_unknown_literal_C10_witness :
    extractRecord dMR (uploadPath "mr.dcm") = Except.ok rMR ∧
    rMR.study_modality = "MR" := by
  have hok : extractRecord dMR (uploadPath "mr.dcm") = Except.ok rMR := rfl
  refine ⟨hok, ?_⟩
  rw [modality_unknown_literal_C10.2 dMR (uploadPath "mr.dcm") rMR rfl hok]
  rfl

/-- Claim C4: filename uniqueness is an invariant of the record store: when
a record with the same filename already exists, a direct insert fails with
the duplicate-key error and leaves the store unchanged, and a full
re-ingestion through the upload endpoint is rejected with the same error,
the stored records untouched. -/
theorem filename_unique_C4 :
    (∀ (st : Store) (r : DicomFile), (∃ sr ∈ st.records, sr.row.filename = r.filename) →
      Store.insert st r = (st, Except.error dupKeyMsg)) ∧
    (∀ (S : SysState) (fn : String) (b : Bytes) (d : DicomData) (r : DicomFile),
      endsWithDcm fn = true → b.parsed = some d →
      extractRecord d (uploadPath fn) = Except.ok r →
      (∃ sr ∈ S.store.records, sr.row.filename = r.filename) →
      (upload_dicom S fn b).1.store = S.store ∧
      (upload_dicom S fn b).2 = Except.error { status := 400, detail := dupKeyMsg }) := by
  constructor
  · exact fun st r h => Store.insert_dup h
  · intro S fn b d r hext hp hr hdup
    rw [upload_dicom_dup hext hp hr hdup]
    exact ⟨rfl, rfl⟩

/-- Witness for C4: re-ingesting a.dcm into the state that already stores
it is rejected with the duplicate-key error and the store is unchanged. -/
theorem filename_unique_C4_witness :
    (upload_dicom S1 "a.dcm" bGood2).1.store = S1.store ∧
    (upload_dicom S1 "a.dcm" bGood2).2 =
      Except.error { status := 400, detail := dupKeyMsg } :=
  filename_unique_C4.2 S1 "a.dcm" bGood2 emptyDicom rEmptyA (by decide) rfl rfl
    ⟨{ id := 1, row := rEmptyA }, by simp [S1], rfl⟩

/-- Claim C9: when a direct upload re-ingests an already-stored filename,
the raw file at the upload path holds the new request's bytes after the
duplicate-key rejection: the stored record is untouched but the on-disk
bytes are those of the rejected attempt. -/
theorem duplicate_overwrites_raw_C9 (S : SysState) (fn : String) (b : Bytes)
    (d : DicomData) (r : DicomFile)
    (hext : endsWithDcm fn = true) (hp : b.parsed = some d)
    (hr : extractRecord d (uploadPath fn) = Except.ok r)
    (hdup : ∃ sr ∈ S.store.records, sr.row.filename = r.filename) :
    FS.read (upload_dicom S fn b).1.fs (uploadPath fn) = some b ∧
    (upload_dicom S fn b).1.store = S.store ∧
    (upload_dicom S fn b).2 = Except.error { status := 400, detail := dupKeyMsg } := by
  rw [upload_dicom_dup hext hp hr hdup]
  exact ⟨FS.read_write S.fs (uploadPath fn) b, rfl, rfl⟩

/-- Witness for C9: after re-uploading a.dcm with different bytes, the file
on disk holds the new payload while the store still has the old record. -/
theorem duplicate_overwrites_raw_C9_witness :
    (FS.read (upload_dicom S1 "a.dcm" bGood2).1.fs (uploadPath "a.dcm") = some bGood2 ∧
     (upload_dicom S1 "a.dcm" bGood2).1.store = S1.store ∧
     (upload_dicom S1 "a.dcm" bGood2).2 =
       Except.error { status := 400, detail := dupKeyMsg }) ∧
    bGood2 ≠ bGood ∧ FS.read S1.fs (uploadPath "a.dcm") = some bGood :=
  ⟨duplicate_overwrites_raw_C9 S1 "a.dcm" bGood2 emptyDicom rEmptyA (by decide) rfl rfl
      ⟨{ id := 1, row := rEmptyA }, by simp [S1], rfl⟩,
   by decide, rfl⟩

/-- Claim C5: for both entry points, when the raw bytes fail DICOM
validation the just-written raw file is deleted and the request is rejected
with the invalid-format error, no record being stored: a validation
rejection leaves no raw file at the upload path. -/
theorem validation_cleanup_C5 :
    (∀ (S : SysState) (fn : String) (b : Bytes), endsWithDcm fn = true → b.parsed = none →
      (upload_dicom S fn b).1.store = S.store ∧
      FS.read (upload_dicom S fn b).1.fs (uploadPath fn) = none ∧
      (upload_dicom S fn b).2 =
        Except.error { status := 400, detail := "Invalid DICOM file" }) ∧
    (∀ (S : SysState) (url : String) (b : Bytes),
      endsWithDcm (urlPathBasename url) = true → b.parsed = none →
      (upload_dicom_from_url S url 200 b).1.store = S.store ∧
      FS.read (upload_dicom_from_url S url 200 b).1.fs
        (uploadPath (urlPathBasename url)) = none ∧
      (upload_dicom_from_url S url 200 b).2 =
        Except.error { status := 500, detail := "400: Invalid DICOM file" }) := by
  constructor
  · intro S fn b hext hp
    unfold upload_dicom
    rw [hext]
    rw [if_neg (by simp)]
    rw [is_valid_write, hp]
    rw [if_pos Option.isSome_none]
    exact ⟨rfl, FS.read_remove (FS.write S.fs (uploadPath fn) b) (uploadPath fn), rfl⟩
  · intro S url b hext hp
    unfold upload_dicom_from_url
    rw [if_neg (by simp)]
    rw [hext]
    rw [if_neg (by simp)]
    rw [is_valid_write, hp]
    rw [if_pos Option.isSome_none]
    refine ⟨rfl, FS.read_remove (FS.write S.fs (uploadPath (urlPathBasename url)) b)
      (uploadPath (urlPathBasename url)), ?_⟩
    rfl

/-- Witness for C5: an invalid payload uploaded directly as bad.dcm, and
fetched from a URL ending in bad.dcm, is rejected with the file deleted. -/
theorem validation_cleanup_C5_witness :
    ((upload_dicom S0 "bad.dcm" bInvalid).1.store = S0.store ∧
     FS.read (upload_dicom S0 "bad.dcm" bInvalid).1.fs (uploadPath "bad.dcm") = none ∧
     (upload_dicom S0 "bad.dcm" bInvalid).2 =
       Except.error { status := 400, detail := "Invalid DICOM file" }) ∧
    ((upload_dicom_from_url S0 "http://host/bad.dcm" 200 bInvalid).1.store = S0.store ∧
     FS.read (upload_dicom_from_url S0 "http://host/bad.dcm" 200 bInvalid).1.fs
       (uploadPath (urlPathBasename "http://host/bad.dcm")) = none ∧
     (upload_dicom_from_url S0 "http://host/bad.dcm" 200 bInvalid).2 =
       Except.error { status := 500, detail := "400: Invalid DICOM file" }) :=
  ⟨validation_cleanup_C5.1 S0 "bad.dcm" bInvalid (by decide) rfl,
   validation_cleanup_C5.2 S0 "http://host/bad.dcm" bInvalid (by decide) rfl⟩

/-- Claim C6: a source filename that does not end in .dcm is rejected by
both entry points before any file write: the whole system state (uploads
directory included) is returned unchanged together with the
unsupported-extension rejection. -/
theorem extension_reject_no_write_C6 :
    (∀ (S : SysState) (fn : String) (b : Bytes), endsWithDcm fn = false →
      upload_dicom S fn b =
        (S, Except.error { status := 400, detail := "Invalid file format. Only DICOM files are allowed" })) ∧
    (∀ (S : SysState) (url : String) (b : Bytes), endsWithDcm (urlPathBasename url) = false →
      upload_dicom_from_url S url 200 b =
        (S, Except.error { status := 500, detail := "400: Invalid file format. Only DICOM files are allowed" })) := by
  constructor
  · intro S fn b hext
    unfold upload_dicom
    rw [hext]
    rw [if_pos rfl]
  · intro S url b hext
    unfold upload_dicom_from_url
    rw [if_neg (by simp)]
    rw [hext]
    rw [if_pos rfl]
    rfl

/-- Witness for C6: a .txt filename is rejected with the state unchanged on
both entry points, and a URL with an empty path such as http://x.dcm (whose
source filename is the empty string, the .dcm ending belonging to the
network location) is likewise rejected without any write. -/
theorem extension_reject_no_write_C6_witness :
    upload_dicom S1 "notes.txt" bGood =
      (S1, Except.error { status := 400, detail := "Invalid file format. Only DICOM files are allowed" }) ∧
    upload_dicom_from_url S1 "http://host/notes.txt" 200 bGood =
      (S1, Except.error { status := 500, detail := "400: Invalid file format. Only DICOM files are allowed" }) ∧
    urlPathBasename "http://x.dcm" = "" ∧
    upload_dicom_from_url S1 "http://x.dcm" 200 bGood =
      (S1, Except.error { status := 500, detail := "400: Invalid file format. Only DICOM files are allowed" }) :=
  ⟨extension_reject_no_write_C6.1 S1 "notes.txt" bGood (by decide),
   extension_reject_no_write_C6.2 S1 "http://host/notes.txt" bGood (by decide),
   by decide,
   extension_reject_no_write_C6.2 S1 "http://x.dcm" bGood (by decide)⟩

/-- Claim C7: resetting deletes every record and restarts the id sequence
at 1, so the next inserted record receives id 1; the delete-all endpoint
leaves exactly that store. -/
theorem reset_all_C7 :
    (∀ (st : Store) (r : DicomFile),
      (reset_id_sequence st false).1.records = [] ∧
      (reset_id_sequence st false).1.nextId = 1 ∧
      Store.insert (reset_id_sequence st false).1 r =
        ({ records := [{ id := 1, row := r }], nextId := 2 }, Except.ok 1)) ∧
    (∀ S : SysState, delete_all_records S false =
      ({ S with store := { records := [], nextId := 1 } },
       "All records deleted and ID sequence reset to 1")) := by
  constructor
  · intro st r
    refine ⟨rfl, rfl, ?_⟩
    rw [Store.insert_fresh (by intro sr hmem; exact absurd hmem (by simp [reset_id_sequence]))]
    rfl
  · intro S
    rfl

/-- Claim C8: each error of the taxonomy maps to its own distinct
user-visible rejection with a non-empty human-readable message, on both
ingestion entry points (the URL entry point wraps every rejection into a
500 whose detail embeds the original one, keeping the messages distinct);
the only swallowed failure is the best-effort counter reset, which is
logged, leaves the rows deleted, and still answers with the endpoint's
success message. -/
theorem error_taxonomy_C8 :
    (upload_dicom S0 "a.dcm" bGood =
      (S1, Except.ok { filename := "a.dcm",
                       message := "File uploaded and metadata stored successfully" })) ∧
    ((upload_dicom S0 "a.txt" bGood).2 = Except.error rejUnsupported) ∧
    ((upload_dicom S0 "bad.dcm" bInvalid).2 = Except.error rejInvalid) ∧
    ((upload_dicom S0 "m.dcm" bBadDate).2 = Except.error rejExtract) ∧
    ((upload_dicom S1 "a.dcm" bGood2).2 = Except.error rejDup) ∧
    (get_metadata S0 "missing.dcm" = Except.error rejNotFound) ∧
    ((upload_dicom_from_url S0 "http://host/f.dcm" 404 bGood).2 = Except.error urejFetch) ∧
    ((upload_dicom_from_url S0 "http://host/a.txt" 200 bGood).2 =
      Except.error (wrap500 rejUnsupported)) ∧
    ((upload_dicom_from_url S0 "http://host/bad.dcm" 200 bInvalid).2 =
      Except.error (wrap500 rejInvalid)) ∧
    ((upload_dicom_from_url S0 "http://host/m.dcm" 200 bBadDate).2 =
      Except.error (wrap500 rejExtract)) ∧
    ((upload_dicom_from_url S1 "http://host/a.dcm" 200 bGood2).2 =
      Except.error (wrap500 rejDup)) ∧
    [rejUnsupported, rejInvalid, rejExtract, rejDup, rejNotFound].Nodup ∧
    [urejFetch, wrap500 rejUnsupported, wrap500 rejInvalid, wrap500 rejExtract,
     wrap500 rejDup, rejNotFound].Nodup ∧
    (∀ rj ∈ [rejUnsupported, rejInvalid, rejExtract, rejDup, rejNotFound, urejFetch,
             wrap500 rejUnsupported, wrap500 rejInvalid, wrap500 rejExtract, wrap500 rejDup],
      rj.detail ≠ "") ∧
    (delete_all_records S1 true =
      ({ S1 with store := { records := [], nextId := 2 } },
       "All records deleted and ID sequence reset to 1")) ∧
    (reset_id_sequence S1.store true = ({ records := [], nextId := 2 }, true)) := by
  refine ⟨rfl, rfl, rfl, rfl, rfl, rfl, rfl, rfl, rfl, rfl, rfl, by decide, by decide,
    by decide, rfl, rfl⟩
